import Mathlib

/-!
Verification of the Telegram chat-export bot (`src/data_parser.py`,
`src/models.py`, `src/bot_handler.py`, `src/config.py`) against its
natural-language specification.

The Python code is shallowly embedded: JSON values are an inductive type,
Python dictionaries are insertion-ordered association lists, Python
exceptions are an `Except PyErr` result, and the two regular expressions
`MENTION_PATTERN` and `CHANNEL_LINK_PATTERN` are implemented as explicit
left-to-right non-overlapping scanners.  External library behaviour that the
claims never depend on (date-string parsing by `datetime`) is a parameter
`isoParse`; "current process time" is a parameter `now`.
-/

namespace ChatBot

/-- Python exception taxonomy actually reachable in the embedded code:
`ValueError` (carrying its message), `AttributeError`, `TypeError`. -/
inductive PyErr where
  | valueError (msg : String)
  | attributeError
  | typeError
deriving DecidableEq, Repr

def exceptDecEq {ε α : Type} [DecidableEq ε] [DecidableEq α] :
    (a b : Except ε α) → Decidable (a = b)
  | .error e, .error f =>
      if h : e = f then isTrue (h ▸ rfl)
      else isFalse (fun hh => h (Except.error.inj hh))
  | .error _, .ok _ => isFalse Except.noConfusion
  | .ok _, .error _ => isFalse Except.noConfusion
  | .ok a, .ok b =>
      if h : a = b then isTrue (h ▸ rfl)
      else isFalse (fun hh => h (Except.ok.inj hh))

instance {ε α : Type} [DecidableEq ε] [DecidableEq α] : DecidableEq (Except ε α) :=
  exceptDecEq

/-- JSON values as produced by `json.loads`.  JSON `null` and Python `None`
are the same Python object, so both are `Json.null`. -/
inductive Json where
  | null
  | bool (b : Bool)
  | num (n : Int)
  | str (s : String)
  | arr (xs : List Json)
  | obj (kvs : List (String × Json))

/-- Python truthiness of a JSON-decoded value. -/
def Json.truthy : Json → Bool
  | .null => false
  | .bool b => b
  | .num n => n != 0
  | .str s => s != ""
  | .arr xs => !xs.isEmpty
  | .obj kvs => !kvs.isEmpty

/-- Python `a or b` on JSON-decoded values. -/
def pyOr (a b : Json) : Json := if a.truthy then a else b

/-- First binding of a key in an association list (Python-dict lookup once
keys are unique, as in every dict the code builds itself). -/
def alistFind? {α : Type} (l : List (String × α)) (k : String) : Option α :=
  match l with
  | [] => none
  | kv :: rest => if kv.1 = k then some kv.2 else alistFind? rest k

/-- Last binding of a key: `json.loads` keeps the last of duplicate keys. -/
def alistFindLast? {α : Type} (l : List (String × α)) (k : String) : Option α :=
  l.foldl (fun acc kv => if kv.1 = k then some kv.2 else acc) none

/-- `dict.get(k)` on a JSON object: the stored value, `None` when absent. -/
def mget (kvs : List (String × Json)) (k : String) : Json :=
  (alistFindLast? kvs k).getD .null

/-- Python `str.lower()` restricted to the ASCII and Cyrillic letters this
program's data and markers use (other code points are left unchanged). -/
def pyCharLower (c : Char) : Char :=
  if 65 ≤ c.toNat ∧ c.toNat ≤ 90 then Char.ofNat (c.toNat + 32)
  else if 1040 ≤ c.toNat ∧ c.toNat ≤ 1071 then Char.ofNat (c.toNat + 32)
  else if c.toNat = 1025 then Char.ofNat 1105
  else c

def pyLower (s : String) : String := String.mk (s.toList.map pyCharLower)

/-- `o or ""` for an optional string: Python treats `None` and `""` alike. -/
def optStr (o : Option String) : String := o.getD ""

/-- `needle` occurs as a contiguous run at the head of `hay`. -/
def listStarts : List Char → List Char → Bool
  | [], _ => true
  | _ :: _, [] => false
  | a :: as, b :: bs => a == b && listStarts as bs

/-- Python `needle in hay` substring containment. -/
def listSub (needle : List Char) : List Char → Bool
  | [] => listStarts needle []
  | c :: cs => listStarts needle (c :: cs) || listSub needle cs

def strContains (hay needle : String) : Bool := listSub needle.toList hay.toList

/-- Python `str.startswith`. -/
def strStartsWith (s pre : String) : Bool := listStarts pre.toList s.toList

/-- Python `str.endswith`. -/
def strEndsWith (s suffix : String) : Bool :=
  listStarts suffix.toList.reverse s.toList.reverse

/-- Python `str.strip()` (whitespace from both ends). -/
def pyStrip (s : String) : String :=
  String.mk (((s.toList.dropWhile Char.isWhitespace).reverse.dropWhile
    Char.isWhitespace).reverse)

/-- Python's code-point-lexicographic `<` on strings, as a boolean. -/
def charLtB (a b : Char) : Bool := a.toNat < b.toNat

def listLtB : List Char → List Char → Bool
  | _, [] => false
  | [], _ :: _ => true
  | a :: as, b :: bs => charLtB a b || (a == b && listLtB as bs)

def strLtB (a b : String) : Bool := listLtB a.toList b.toList

def strLeB (a b : String) : Bool := !(strLtB b a)

/-! ### The two regular expressions of `data_parser.py`

`MENTION_PATTERN = @([A-Za-z0-9_]{5,})` and
`CHANNEL_LINK_PATTERN = (?:https?://)?t\.me/([A-Za-z0-9_]+)` (IGNORECASE),
both used through `findall`: a left-to-right scan collecting
non-overlapping matches, advancing one character on failure. -/

/-- The character class `[A-Za-z0-9_]`. -/
def isWordChar (c : Char) : Bool := c.isAlpha || c.isDigit || c == '_'

/-- Greedily split off the maximal leading run of word characters. -/
def takeWordRun : List Char → List Char × List Char
  | [] => ([], [])
  | c :: cs =>
      if isWordChar c then
        let p := takeWordRun cs
        (c :: p.1, p.2)
      else ([], c :: cs)

theorem takeWordRun_snd_length : ∀ cs : List Char, (takeWordRun cs).2.length ≤ cs.length
  | [] => Nat.le_refl _
  | c :: cs => by
      simp only [takeWordRun]
      split
      · exact Nat.le_succ_of_le (takeWordRun_snd_length cs)
      · exact Nat.le_refl _

/-- `MENTION_PATTERN.findall`: each match is `@` followed by five or more
word characters (greedy); the capture excludes the `@`.  Structured on a
fuel argument for kernel evaluation; every step consumes at least one
character, so fuel equal to the input length never runs out. -/
def mentionScanF : Nat → List Char → List String
  | 0, _ => []
  | _ + 1, [] => []
  | fuel + 1, '@' :: rest =>
      let p := takeWordRun rest
      if 5 ≤ p.1.length then String.mk p.1 :: mentionScanF fuel p.2
      else mentionScanF fuel rest
  | fuel + 1, _ :: rest => mentionScanF fuel rest

def mentionScan (l : List Char) : List String := mentionScanF l.length l

/-- Case-insensitive match of a literal at the head of the input, returning
the remainder on success (regex `IGNORECASE` literal matching). -/
def matchLit : List Char → List Char → Option (List Char)
  | [], rest => some rest
  | _ :: _, [] => none
  | p :: ps, c :: cs => if pyCharLower p == pyCharLower c then matchLit ps cs else none

theorem matchLit_length : ∀ (ps cs rest : List Char), matchLit ps cs = some rest →
    rest.length + ps.length = cs.length
  | [], cs, rest, h => by
      simp only [matchLit, Option.some.injEq] at h
      simp [← h]
  | p :: ps, [], rest, h => by simp [matchLit] at h
  | p :: ps, c :: cs, rest, h => by
      simp only [matchLit] at h
      split at h
      · have := matchLit_length ps cs rest h
        simp only [List.length_cons]
        omega
      · exact absurd h (by simp)

/-- One attempt of `CHANNEL_LINK_PATTERN` anchored at the head of `l`:
optional `https://` or `http://` scheme, the literal `t.me/`, then one or
more word characters (greedy capture).  The regex's backtracking out of a
matched scheme can never succeed (the input would have to start with both
the scheme and `t.me/`), so it is not modelled. -/
def tryChannelAt (l : List Char) : Option (String × List Char) :=
  let core : List Char → Option (String × List Char) := fun l' =>
    match matchLit "t.me/".toList l' with
    | none => none
    | some rest =>
        let p := takeWordRun rest
        if p.1.isEmpty then none else some (String.mk p.1, p.2)
  match matchLit "https://".toList l with
  | some rest => core rest
  | none =>
      match matchLit "http://".toList l with
      | some rest => core rest
      | none => core l

theorem tryChannelAt_length (l : List Char) (h rest : _)
    (hm : tryChannelAt l = some (h, rest)) : rest.length < l.length := by
  have hcore : ∀ l' : List Char, l'.length ≤ l.length →
      (match matchLit "t.me/".toList l' with
        | none => none
        | some r =>
            let p := takeWordRun r
            if p.1.isEmpty then none else some (String.mk p.1, p.2)) = some (h, rest) →
      rest.length < l.length := by
    intro l' hle hm
    cases hml : matchLit "t.me/".toList l' with
    | none => rw [hml] at hm; exact absurd hm (by simp)
    | some r =>
        rw [hml] at hm
        have hr := matchLit_length _ _ _ hml
        simp only at hm
        split at hm
        · exact absurd hm (by simp)
        · have : rest = (takeWordRun r).2 := by
            have := Option.some.inj hm
            exact (congrArg Prod.snd this).symm ▸ rfl
          have h2 := takeWordRun_snd_length r
          rw [this]
          have hlen : ("t.me/".toList).length = 5 := rfl
          omega
  unfold tryChannelAt at hm
  cases h1 : matchLit "https://".toList l with
  | some r1 =>
      rw [h1] at hm
      have := matchLit_length _ _ _ h1
      exact hcore r1 (by omega) hm
  | none =>
      rw [h1] at hm
      cases h2 : matchLit "http://".toList l with
      | some r2 =>
          rw [h2] at hm
          have := matchLit_length _ _ _ h2
          exact hcore r2 (by omega) hm
      | none =>
          rw [h2] at hm
          exact hcore l (Nat.le_refl _) hm

/-- `CHANNEL_LINK_PATTERN.findall`: captures in scan order, raw case.  A
successful match always consumes at least one character
(`tryChannelAt_length`), so fuel equal to the input length never runs
out. -/
def channelScanF : Nat → List Char → List String
  | 0, _ => []
  | _ + 1, [] => []
  | fuel + 1, c :: cs =>
      match tryChannelAt (c :: cs) with
      | some (h, rest) => h :: channelScanF fuel rest
      | none => channelScanF fuel cs

def channelScan (l : List Char) : List String := channelScanF l.length l

/-- `DataParser._extract_mentions`: free-text scan; both kinds of handles
are lowercased and prefixed. -/
def extractMentions (text : String) : List String × List String :=
  ((mentionScan text.toList).map (fun m => "@" ++ pyLower m),
   (channelScan text.toList).map (fun m => "t.me/" ++ pyLower m))

/-! ### `models.py` -/

/-- `IdentityRecord` (dates kept as the ISO strings the parser stores). -/
structure IdentityRecord where
  identifier : String
  username : Option String := none
  full_name : Option String := none
  bio : Option String := none
  registered_at : Option String := none
  has_channel : Option Bool := none
deriving DecidableEq, Repr

/-- `IdentityRecord._bool_to_text`. -/
def boolToText : Option Bool → String
  | none => "Неизвестно"
  | some true => "Да"
  | some false => "Нет"

/-- One row of `IdentityRecord.to_row` (fixed six-column schema). -/
structure Row where
  export_date : String
  username : String
  full_name : String
  bio : String
  registered_at : String
  has_channel : String
deriving DecidableEq, Repr

/-- `IdentityRecord.to_row`. -/
def IdentityRecord.to_row (r : IdentityRecord) (exported_at : String) : Row :=
  { export_date := exported_at
    username := optStr r.username
    full_name := optStr r.full_name
    bio := optStr r.bio
    registered_at := optStr r.registered_at
    has_channel := boolToText r.has_channel }

/-- `ParsedData` (the spec's ExtractionResult). -/
structure ParsedData where
  exported_at : String
  participants : List IdentityRecord := []
  mentions : List IdentityRecord := []
  channels : List IdentityRecord := []
deriving DecidableEq, Repr

/-- `SessionData`; the three Python dicts are insertion-ordered association
lists with unique keys. -/
structure SessionData where
  participants : List (String × IdentityRecord) := []
  mentions : List (String × IdentityRecord) := []
  channels : List (String × IdentityRecord) := []
  files_processed : Nat := 0
  last_exported_at : Option String := none
  files_received : Nat := 0
deriving DecidableEq, Repr

/-- The counters dict returned by `SessionData.merge`. -/
structure MergeCounters where
  participants : Nat := 0
  mentions : Nat := 0
  channels : Nat := 0
deriving DecidableEq, Repr

def hasKey (m : List (String × IdentityRecord)) (k : String) : Bool :=
  m.any (fun kv => kv.1 == k)

/-- One record of one category of `SessionData.merge`: insert when the
identifier is not yet present, counting the insertion. -/
def mergeStep (acc : List (String × IdentityRecord) × Nat) (r : IdentityRecord) :
    List (String × IdentityRecord) × Nat :=
  if hasKey acc.1 r.identifier then acc
  else (acc.1 ++ [(r.identifier, r)], acc.2 + 1)

/-- One category of `SessionData.merge`. -/
def mergeCat (m : List (String × IdentityRecord)) (records : List IdentityRecord) :
    List (String × IdentityRecord) × Nat :=
  records.foldl mergeStep (m, 0)

/-- `SessionData.merge`. -/
def SessionData.merge (s : SessionData) (parsed : ParsedData) :
    SessionData × MergeCounters :=
  let p := mergeCat s.participants parsed.participants
  let m := mergeCat s.mentions parsed.mentions
  let c := mergeCat s.channels parsed.channels
  ({ s with
      participants := p.1
      mentions := m.1
      channels := c.1
      files_processed := s.files_processed + 1
      last_exported_at := some parsed.exported_at },
   { participants := p.2, mentions := m.2, channels := c.2 })

/-- `SessionData.reset`. -/
def SessionData.reset (_ : SessionData) : SessionData := {}

/-- The three tables returned by `SessionData.as_rows`. -/
structure RowsByCategory where
  participants : List Row
  mentions : List Row
  channels : List Row
deriving DecidableEq, Repr

/-- `_records_to_rows`. -/
def recordsToRows (records : List IdentityRecord) (exported_at : String) : List Row :=
  records.map (fun r => r.to_row exported_at)

/-- `SessionData.as_rows`; `now` stands for `datetime.utcnow()` and the
`or`-chain follows Python truthiness. -/
def SessionData.as_rows (s : SessionData) (exported_at : Option String)
    (now : String) : RowsByCategory :=
  let e := if optStr exported_at = "" then
             (if optStr s.last_exported_at = "" then now
              else optStr s.last_exported_at)
           else optStr exported_at
  { participants := recordsToRows (s.participants.map (fun kv => kv.2)) e
    mentions := recordsToRows (s.mentions.map (fun kv => kv.2)) e
    channels := recordsToRows (s.channels.map (fun kv => kv.2)) e }

/-! ### Handle sets and `sorted`

The parser's per-file `mentions`/`channels` are Python sets; they are
modelled as duplicate-free lists grown by membership-checked insertion, and
`sorted(...)` is an insertion sort over the string order (code-point
lexicographic, the same order Python uses). -/

def insertHandle (s : List String) (h : String) : List String :=
  if h ∈ s then s else s ++ [h]

def insertHandles (s : List String) (hs : List String) : List String :=
  hs.foldl insertHandle s

def insSorted (x : String) : List String → List String
  | [] => [x]
  | y :: ys => if strLeB x y then x :: y :: ys else y :: insSorted x ys

def sortStr (l : List String) : List String := l.foldr insSorted []

/-- `DataParser._records_from_handles`. -/
def recordOfHandle (assumeChannel : Bool) (handle : String) : IdentityRecord :=
  { identifier := pyLower handle
    username := if strStartsWith handle "@" then some handle else none
    full_name := if strStartsWith handle "@" then none else some handle
    has_channel := if assumeChannel then some true else none }

def recordsFromHandles (handles : List String) (assumeChannel : Bool) :
    List IdentityRecord :=
  (sortStr handles).map (recordOfHandle assumeChannel)

/-! ### `data_parser.py` -/

def DELETED_TOKENS : List String := ["deleted account", "удалённый", "удаленный"]

/-- `DataParser._is_deleted` applied to the raw `from`/`actor` value: falsy
values are not deleted; `.lower()` on a non-string raises. -/
def isDeletedJ (j : Json) : Except PyErr Bool :=
  if j.truthy then
    match j with
    | .str s => .ok (DELETED_TOKENS.any (fun t => strContains (pyLower s) t))
    | _ => .error .attributeError
  else .ok false

/-- `DataParser._normalize_username` on a string that survived the
truthiness check: strip, re-check, ensure the leading `@`. -/
def normalizeUsernameStr (value : String) : Option String :=
  if pyStrip value = "" then none
  else if strStartsWith (pyStrip value) "@" then some (pyStrip value)
  else some ("@" ++ pyStrip value)

/-- `DataParser._normalize_username` on the raw JSON field value. -/
def normalizeUsernameJ (j : Json) : Except PyErr (Option String) :=
  if j.truthy then
    match j with
    | .str s => .ok (normalizeUsernameStr s)
    | _ => .error .attributeError
  else .ok none

/-- `DataParser._extract_username`. -/
def extractUsernameM (kvs : List (String × Json)) : Except PyErr (Option String) :=
  normalizeUsernameJ (pyOr (mget kvs "from_username") (mget kvs "username"))

/-- `DataParser._build_identifier` (arguments follow Python truthiness:
`None` and `""` are both absent). -/
def buildIdentifier (username fallback full_name : Option String) : String :=
  if optStr username = "" then
    if optStr fallback = "" then
      pyLower (if optStr full_name = "" then "unknown" else optStr full_name)
    else optStr fallback ++ ":" ++ pyLower (optStr full_name)
  else pyLower (optStr username)

/-- Python `str()` of a JSON-decoded value, as applied to the
`from_id`/`actor_id` fallback.  Container reprs are abbreviated: no export
ever carries a container id and no claim evaluates one. -/
def pyStr : Json → String
  | .null => "None"
  | .bool true => "True"
  | .bool false => "False"
  | .num n => toString n
  | .str s => s
  | .arr _ => "[...]"
  | .obj _ => "\x7b...\x7d"

/-- `DataParser._safe_iso_date` on the raw JSON date value; `isoParse`
stands for the `datetime` round-trip (`fromisoformat`/`strptime` then
`isoformat`), returning `none` when neither format parses. -/
def safeIsoDateJ (isoParse : String → Option String) (j : Json) :
    Except PyErr (Option String) :=
  if j.truthy then
    match j with
    | .str s =>
        let t := pyStrip s
        .ok (if t = "" then none else isoParse t)
    | _ => .error .attributeError
  else .ok none

/-- `DataParser._handle_from_href`. -/
def handleFromHref (j : Json) : Except PyErr (Option String) :=
  if j.truthy then
    match j with
    | .str s =>
        if strStartsWith s "@" then .ok (some s)
        else
          match (channelScan s.toList).head? with
          | some h => .ok (some ("t.me/" ++ pyLower h))
          | none => .ok none
    | _ => .error .attributeError
  else .ok none

/-- Python `for x in j`: arrays yield elements, strings their characters,
dicts their (first-occurrence) keys; other values raise `TypeError`. -/
def iterJson : Json → Except PyErr (List Json)
  | .arr xs => .ok xs
  | .str s => .ok (s.toList.map (fun c => Json.str (String.mk [c])))
  | .obj kvs => .ok (((kvs.map (fun kv => kv.1)).foldl
      (fun acc k => if k ∈ acc then acc else acc ++ [k]) []).map Json.str)
  | _ => .error .typeError

/-- `DataParser._stringify_text`.  A fragment of non-string type makes the
final `" ".join` raise `TypeError`; this is detected per fragment, which is
observationally the same since the join happens before the function
returns. -/
def stringifyText (kvs : List (String × Json)) : Except PyErr String := do
  match mget kvs "text" with
  | .str s => .ok s
  | .arr chunks =>
      let frags ← chunks.foldlM
        (fun (acc : List String) chunk =>
          match chunk with
          | .str s => .ok (acc ++ [s])
          | .obj ckvs =>
              match (alistFindLast? ckvs "text").getD (.str "") with
              | .str s => .ok (acc ++ [s])
              | _ => .error .typeError
          | _ => .ok acc)
        []
      .ok (String.intercalate " " frags)
  | _ => .ok ""

/-- `DataParser._extract_entities` together with the caller's classification
loop is driven by this eager list of yielded handles (the generator's
exceptions abort the whole parse either way). -/
def extractEntities (kvs : List (String × Json)) : Except PyErr (List String) := do
  let entsJ := pyOr (mget kvs "text_entities") (pyOr (mget kvs "entities") (.arr []))
  let items ← iterJson entsJ
  items.foldlM
    (fun (acc : List String) ent =>
      match ent with
      | .obj ekvs =>
          match pyOr (mget ekvs "text") (.str "") with
          | .str s =>
              if strStartsWith s "@" then .ok (acc ++ [s])
              else do
                let url := pyOr (mget ekvs "href") (mget ekvs "url")
                let h ← handleFromHref url
                .ok (acc ++ h.toList)
          | _ => .error .attributeError
      | _ => .error .attributeError)
    []

/-- `message.get("type") not in (None, "message", "service")` is false. -/
def typeAllowed : Json → Bool
  | .null => true
  | .str s => s == "message" || s == "service"
  | _ => false

/-- The `registered_at` update of a repeated sender (lines 66–72 of
`data_parser.py`): overwrite only when the new date is truthy and either no
date is stored or the new one is string-smaller. -/
def minRegUpdate (reg msg_date : Option String) : Option String :=
  if optStr msg_date = "" then reg
  else if optStr reg = "" then msg_date
  else if strLtB (optStr msg_date) (optStr reg) then msg_date
  else reg

/-- In-place mutation of the repeated sender's record inside the per-file
`authors` dict. -/
def updateReg (authors : List (String × IdentityRecord)) (k : String)
    (msg_date : Option String) : List (String × IdentityRecord) :=
  authors.map
    (fun kv =>
      if kv.1 = k then (kv.1, { kv.2 with registered_at := minRegUpdate kv.2.registered_at msg_date })
      else kv)

/-- Mutable state of the message loop of `_parse_json`: the `authors` dict
and the two handle sets. -/
structure PState where
  authors : List (String × IdentityRecord) := []
  mentions : List String := []
  channels : List String := []
deriving DecidableEq, Repr

/-- Sender value as stored into `IdentityRecord.full_name`: at this point it
is either a string or falsy, and every reader of the record maps falsy
values to "absent". -/
def senderStr : Json → Option String
  | .str s => some s
  | _ => none

/-- Mention/channel extraction from the message text and entity spans,
shared by every non-skipped message (lines 74–83 of `data_parser.py`). -/
def scanTexts (kvs : List (String × Json)) (st : PState) :
    Except PyErr PState := do
  let text ← stringifyText kvs
  let p := extractMentions text
  let st := { st with
    mentions := insertHandles st.mentions p.1
    channels := insertHandles st.channels p.2 }
  let ents ← extractEntities kvs
  .ok (ents.foldl
    (fun st e =>
      if strStartsWith e "@" then { st with mentions := insertHandle st.mentions e }
      else { st with channels := insertHandle st.channels e })
    st)

/-- One iteration of the message loop of `DataParser._parse_json`
(lines 46–83). -/
def processMessage (isoParse : String → Option String) (st : PState)
    (message : Json) : Except PyErr PState := do
  match message with
  | .obj kvs =>
      if !typeAllowed (mget kvs "type") then .ok st
      else do
        let sender := pyOr (mget kvs "from") (mget kvs "actor")
        let deleted ← isDeletedJ sender
        if deleted then .ok st
        else do
          let username ← extractUsernameM kvs
          let fallback := pyStr (pyOr (mget kvs "from_id") (pyOr (mget kvs "actor_id") (.str "")))
          let identifier := buildIdentifier username (some fallback) (senderStr sender)
          if identifier = "" then scanTexts kvs st
          else if hasKey st.authors identifier then do
            let msg_date ← safeIsoDateJ isoParse (mget kvs "date")
            scanTexts kvs { st with authors := updateReg st.authors identifier msg_date }
          else do
            let u2 ← extractUsernameM kvs
            let reg ← safeIsoDateJ isoParse (mget kvs "date")
            scanTexts kvs
              { st with authors := st.authors ++
                  [(identifier,
                    { identifier := identifier
                      username := u2
                      full_name := senderStr sender
                      registered_at := reg })] }
  | _ => .ok st

/-- The short-circuiting `raw.get("date") or raw.get("exported_at") or
raw.get("date_range", {}).get("to")` chain of
`DataParser._extract_exported_at`. -/
def exportDateValue (kvs : List (String × Json)) : Except PyErr Json :=
  if (mget kvs "date").truthy then .ok (mget kvs "date")
  else if (mget kvs "exported_at").truthy then .ok (mget kvs "exported_at")
  else
    match (alistFindLast? kvs "date_range").getD (.obj []) with
    | .obj dkvs => .ok (mget dkvs "to")
    | _ => .error .attributeError

/-- `DataParser._extract_exported_at` on the (necessarily dict) top level;
`now` stands for `datetime.utcnow()`. -/
def extractExportedAt (isoParse : String → Option String) (now : String)
    (kvs : List (String × Json)) : Except PyErr String := do
  let dv ← exportDateValue kvs
  let parsed ← safeIsoDateJ isoParse dv
  if optStr parsed = "" then .ok now else .ok (optStr parsed)

/-- `DataParser._parse_json`, with `json.loads(payload.decode("utf-8"))`
abstracted into its result: `none` when decoding or JSON parsing failed. -/
def parseJsonDecoded (isoParse : String → Option String) (now : String)
    (decoded : Option Json) : Except PyErr ParsedData := do
  match decoded with
  | none => .error (.valueError "Не удалось разобрать JSON-файл экспорта")
  | some (.obj kvs) =>
      let messagesJ := (alistFindLast? kvs "messages").getD (.arr [])
      let exported ← extractExportedAt isoParse now kvs
      let msgs ← iterJson messagesJ
      let st ← msgs.foldlM (processMessage isoParse) {}
      .ok { exported_at := exported
            participants := st.authors.map (fun kv => kv.2)
            mentions := recordsFromHandles st.mentions false
            channels := recordsFromHandles st.channels true }
  | some _ => .error .attributeError

/-- Python `bytes.lstrip()` (ASCII whitespace bytes). -/
def bytesLstrip (l : List Nat) : List Nat :=
  l.dropWhile (fun b => b = 9 ∨ b = 10 ∨ b = 11 ∨ b = 12 ∨ b = 13 ∨ b = 32)

/-- `DataParser.parse`: route by file extension, else by a leading `{`
byte; otherwise fall through, which in Python returns `None`. -/
def DataParser.parse (isoParse : String → Option String) (now : String)
    (file_name : Option String) (payload : List Nat) (decoded : Option Json) :
    Except PyErr (Option ParsedData) :=
  if strEndsWith (pyLower (optStr file_name)) ".json" then
    (parseJsonDecoded isoParse now decoded).map some
  else if (bytesLstrip payload).head? = some 123 then
    (parseJsonDecoded isoParse now decoded).map some
  else .ok none

/-! ### `config.py` and the `export` routing of `bot_handler.py` -/

/-- `Settings` with its defaults. -/
structure Settings where
  token : String
  max_size : Nat := 10485760
  min_inline_response : Nat := 50
  timezone : String := "UTC"

/-- The three ways `BotHandler.export` can answer once files are present. -/
inductive ExportRoute where
  | emptyNotice
  | inlineText
  | excel
deriving DecidableEq, Repr

/-- The decision logic of `BotHandler.export` (lines 175–190): the
empty-session notice, then the strict threshold comparison. -/
def exportRoute (total files_received min_inline_response : Nat) : ExportRoute :=
  if total = 0 ∧ 0 < files_received then .emptyNotice
  else if total < min_inline_response then .inlineText
  else .excel

/-- The spec's display label for sorting: `(username or full_name or
"").lowercase()`.  Written from the spec's words for comparison with
`as_rows`. -/
def specSortKey (r : IdentityRecord) : String :=
  pyLower (if optStr r.username = "" then optStr r.full_name else optStr r.username)

/-- The same label computed from a projected row. -/
def rowSortKey (row : Row) : String :=
  pyLower (if row.username = "" then row.full_name else row.username)

/-- `_normalize_username` on an optional string argument (the shape the
Identity Normalizer contract of the spec quantifies over). -/
def normalizeUsernameOpt (u : Option String) : Option String :=
  if optStr u = "" then none else normalizeUsernameStr (optStr u)

/-- The composite the spec calls `buildIdentifier`: normalization of the
username followed by `_build_identifier`, as wired in `_parse_json`. -/
def buildIdentifierNorm (u f n : Option String) : String :=
  buildIdentifier (normalizeUsernameOpt u) f n

/-- `buildIdentifier` written from the spec's words (priority rule with
inlined username normalization), for comparison with the source
composite. -/
def specBuildIdentifier (u f n : Option String) : String :=
  if pyStrip (optStr u) = "" then
    if optStr f = "" then
      (if optStr n = "" then "unknown" else pyLower (optStr n))
    else optStr f ++ ":" ++ pyLower (optStr n)
  else pyLower (if strStartsWith (pyStrip (optStr u)) "@" then pyStrip (optStr u)
                else "@" ++ pyStrip (optStr u))

/-- The raw handle a mention/channel record stores (`username` for
`@`-handles, `full_name` for channel links). -/
def storedHandle (r : IdentityRecord) : String :=
  match r.username with
  | some u => u
  | none => optStr r.full_name

/-! ### Helper lemmas: `pyLower` -/

theorem toNat_ofNat_valid {n : Nat} (h : n < 55296) : (Char.ofNat n).toNat = n := by
  unfold Char.ofNat
  rw [dif_pos (Or.inl h)]
  rfl

theorem pyCharLower_idem (c : Char) : pyCharLower (pyCharLower c) = pyCharLower c := by
  have hv := c.val.toNat_lt
  unfold pyCharLower
  by_cases h1 : 65 ≤ c.toNat ∧ c.toNat ≤ 90
  · rw [if_pos h1]
    have ht : (Char.ofNat (c.toNat + 32)).toNat = c.toNat + 32 :=
      toNat_ofNat_valid (by omega)
    rw [if_neg (by omega), if_neg (by omega), if_neg (by omega)]
  · rw [if_neg h1]
    by_cases h2 : 1040 ≤ c.toNat ∧ c.toNat ≤ 1071
    · rw [if_pos h2]
      have ht : (Char.ofNat (c.toNat + 32)).toNat = c.toNat + 32 :=
        toNat_ofNat_valid (by omega)
      rw [if_neg (by omega), if_neg (by omega), if_neg (by omega)]
    · rw [if_neg h2]
      by_cases h3 : c.toNat = 1025
      · rw [if_pos h3]
        have ht : (Char.ofNat 1105).toNat = 1105 := toNat_ofNat_valid (by omega)
        rw [if_neg (by omega), if_neg (by omega), if_neg (by omega)]
      · rw [if_neg h3, if_neg h1, if_neg h2, if_neg h3]

theorem toList_mk (l : List Char) : (String.mk l).toList = l := rfl

theorem pyLower_idem (s : String) : pyLower (pyLower s) = pyLower s := by
  unfold pyLower
  rw [toList_mk, List.map_map]
  exact congrArg String.mk (List.map_congr_left (fun c _ => pyCharLower_idem c))

theorem pyLower_append (s t : String) : pyLower (s ++ t) = pyLower s ++ pyLower t := by
  apply String.ext
  show List.map pyCharLower (s ++ t).data = _
  rw [String.data_append, List.map_append]
  rfl

/-! ### Helper lemmas: the boolean string order agrees with `<` and `≤` -/

theorem charLtB_iff (a b : Char) : charLtB a b = true ↔ a < b :=
  ⟨fun h => of_decide_eq_true h, fun h => decide_eq_true h⟩

theorem listLtB_iff : ∀ l1 l2 : List Char, listLtB l1 l2 = true ↔ l1 < l2
  | l1, [] => by
      constructor
      · intro h
        cases l1 <;> simp [listLtB] at h
      · intro h
        cases h
  | [], b :: bs => by
      constructor
      · intro _
        exact List.Lex.nil
      · intro _
        rfl
  | a :: as, b :: bs => by
      show (charLtB a b || (a == b && listLtB as bs)) = true ↔ _
      rw [Bool.or_eq_true, Bool.and_eq_true, charLtB_iff, beq_iff_eq, listLtB_iff as bs]
      constructor
      · rintro (h | ⟨rfl, h⟩)
        · exact List.Lex.rel h
        · exact List.Lex.cons h
      · intro h
        cases h with
        | cons h => exact Or.inr ⟨rfl, h⟩
        | rel h => exact Or.inl h

theorem strLtB_iff (a b : String) : strLtB a b = true ↔ a < b :=
  (listLtB_iff _ _).trans String.lt_iff_toList_lt.symm

theorem strLtB_eq_false_iff (a b : String) : strLtB a b = false ↔ ¬ a < b := by
  constructor
  · intro h hlt
    rw [(strLtB_iff a b).mpr hlt] at h
    exact Bool.noConfusion h
  · intro h
    cases hx : strLtB a b with
    | false => rfl
    | true => exact absurd ((strLtB_iff a b).mp hx) h

theorem strLeB_iff (a b : String) : strLeB a b = true ↔ a ≤ b := by
  unfold strLeB
  rw [Bool.not_eq_true']
  rw [strLtB_eq_false_iff]
  exact not_lt

/-! ### Helper lemmas: insertion sort -/

theorem insSorted_perm (x : String) (l : List String) :
    List.Perm (insSorted x l) (x :: l) := by
  induction l with
  | nil => exact List.Perm.refl _
  | cons y ys ih =>
      unfold insSorted
      split
      · exact List.Perm.refl _
      · exact List.Perm.trans ((List.perm_cons y).mpr ih) (List.Perm.swap x y ys)

theorem sortStr_perm (l : List String) : List.Perm (sortStr l) l := by
  induction l with
  | nil => exact List.Perm.refl _
  | cons x xs ih =>
      unfold sortStr at ih ⊢
      exact List.Perm.trans (insSorted_perm x (List.foldr insSorted [] xs))
        ((List.perm_cons x).mpr ih)

theorem insSorted_sorted (x : String) (l : List String)
    (h : List.Sorted (· ≤ ·) l) : List.Sorted (· ≤ ·) (insSorted x l) := by
  induction l with
  | nil => simp [insSorted]
  | cons y ys ih =>
      rw [List.sorted_cons] at h
      unfold insSorted
      split
      · rename_i hxy
        have hxy' : x ≤ y := (strLeB_iff x y).mp hxy
        rw [List.sorted_cons]
        refine ⟨?_, (List.sorted_cons).mpr h⟩
        intro b hb
        rcases List.mem_cons.mp hb with hb | hb
        · exact hb ▸ hxy'
        · exact le_trans hxy' (h.1 b hb)
      · rename_i hxy
        have hyx : y ≤ x := le_of_not_le (fun hle => hxy ((strLeB_iff x y).mpr hle))
        rw [List.sorted_cons]
        refine ⟨?_, ih h.2⟩
        intro b hb
        have := (insSorted_perm x ys).mem_iff.mp hb
        rcases List.mem_cons.mp this with hb' | hb'
        · exact hb' ▸ hyx
        · exact h.1 b hb'

theorem sortStr_sorted (l : List String) : List.Sorted (· ≤ ·) (sortStr l) := by
  induction l with
  | nil => simp [sortStr]
  | cons x xs ih => exact insSorted_sorted x _ ih

theorem sortStr_nodup {l : List String} (h : l.Nodup) : (sortStr l).Nodup :=
  ((sortStr_perm l).nodup_iff).mpr h

/-! ### Helper lemmas: `mergeCat` -/

theorem hasKey_append_single (m : List (String × IdentityRecord)) (k' : String)
    (v : IdentityRecord) (k : String) :
    hasKey (m ++ [(k', v)]) k = (hasKey m k || (k' == k)) := by
  simp [hasKey, List.any_append]

theorem mergeStep_hasKey (acc : List (String × IdentityRecord) × Nat)
    (r : IdentityRecord) (k : String) :
    hasKey (mergeStep acc r).1 k = (hasKey acc.1 k || (r.identifier == k)) := by
  unfold mergeStep
  split
  · rename_i hin
    by_cases hk : r.identifier == k
    · have : hasKey acc.1 k = true := by
        rw [← beq_iff_eq.mp hk]; exact hin
      simp [this]
    · simp [hk]
  · exact hasKey_append_single acc.1 r.identifier r k

theorem foldl_mergeStep_hasKey (rs : List IdentityRecord) :
    ∀ (acc : List (String × IdentityRecord) × Nat) (k : String),
    hasKey (rs.foldl mergeStep acc).1 k
      = (hasKey acc.1 k || rs.any (fun r => r.identifier == k)) := by
  induction rs with
  | nil => intro acc k; simp
  | cons r rs ih =>
      intro acc k
      rw [List.foldl_cons, ih (mergeStep acc r) k, mergeStep_hasKey]
      simp [Bool.or_assoc]

theorem alistFind?_append_of_hasKey {m : List (String × IdentityRecord)}
    (ext : List (String × IdentityRecord)) {k : String} (h : hasKey m k = true) :
    alistFind? (m ++ ext) k = alistFind? m k := by
  induction m with
  | nil => simp [hasKey] at h
  | cons kv rest ih =>
      by_cases hk : kv.1 = k
      · simp [alistFind?, hk]
      · have h' : hasKey rest k = true := by
          simpa [hasKey, (by simpa using hk : (kv.1 == k) = false)] using h
        simp [alistFind?, hk, ih h']

theorem foldl_mergeStep_find (rs : List IdentityRecord) :
    ∀ (acc : List (String × IdentityRecord) × Nat) (k : String),
    hasKey acc.1 k = true →
    alistFind? (rs.foldl mergeStep acc).1 k = alistFind? acc.1 k := by
  induction rs with
  | nil => intro acc k _; rfl
  | cons r rs ih =>
      intro acc k hk
      have hk' : hasKey (mergeStep acc r).1 k = true := by
        rw [mergeStep_hasKey]; simp [hk]
      rw [List.foldl_cons, ih (mergeStep acc r) k hk']
      unfold mergeStep
      split
      · rfl
      · exact alistFind?_append_of_hasKey _ hk

theorem foldl_mergeStep_all_present (rs : List IdentityRecord) :
    ∀ (acc : List (String × IdentityRecord) × Nat),
    (∀ r ∈ rs, hasKey acc.1 r.identifier = true) →
    rs.foldl mergeStep acc = acc := by
  induction rs with
  | nil => intro acc _; rfl
  | cons r rs ih =>
      intro acc hall
      have h1 : mergeStep acc r = acc := by
        unfold mergeStep
        rw [if_pos (hall r (List.mem_cons_self r rs))]
      rw [List.foldl_cons, h1]
      exact ih acc (fun r' hr' => hall r' (List.mem_cons_of_mem r hr'))

theorem foldl_mergeStep_mem_keys (rs : List IdentityRecord)
    (acc : List (String × IdentityRecord) × Nat) (r : IdentityRecord)
    (hr : r ∈ rs) : hasKey (rs.foldl mergeStep acc).1 r.identifier = true := by
  rw [foldl_mergeStep_hasKey]
  have : rs.any (fun x => x.identifier == r.identifier) = true :=
    List.any_eq_true.mpr ⟨r, hr, by simp⟩
  simp [this]

/-! ### Helper lemmas: which errors the parser can raise

Everything after the `json.loads` branch raises only `AttributeError` or
`TypeError`; the `ValueError` of `_parse_json` comes only from the decode
failure. -/

def NoVE {α : Type} (x : Except PyErr α) : Prop :=
  ∀ msg, x ≠ .error (.valueError msg)

theorem noVE_ok {α : Type} (a : α) : NoVE (Except.ok a : Except PyErr α) := by
  intro m h; exact Except.noConfusion h

theorem noVE_attr {α : Type} : NoVE (Except.error PyErr.attributeError : Except PyErr α) := by
  intro m h
  exact PyErr.noConfusion (Except.error.inj h)

theorem noVE_type {α : Type} : NoVE (Except.error PyErr.typeError : Except PyErr α) := by
  intro m h
  exact PyErr.noConfusion (Except.error.inj h)

theorem noVE_bind {α β : Type} {x : Except PyErr α} {f : α → Except PyErr β}
    (hx : NoVE x) (hf : ∀ a, NoVE (f a)) : NoVE (x >>= f) := by
  cases x with
  | ok a => exact hf a
  | error e =>
      intro m h
      have he : (Except.error e : Except PyErr β) = .error (.valueError m) := h
      exact hx m (congrArg (fun err => (Except.error err : Except PyErr α)) (Except.error.inj he))

theorem noVE_foldlM {α β : Type} (f : β → α → Except PyErr β)
    (hf : ∀ acc a, NoVE (f acc a)) (l : List α) :
    ∀ init : β, NoVE (l.foldlM f init) := by
  induction l with
  | nil => intro init; exact noVE_ok init
  | cons a l ih =>
      intro init
      rw [List.foldlM_cons]
      exact noVE_bind (hf init a) ih

theorem noVE_isDeletedJ (j : Json) : NoVE (isDeletedJ j) := by
  intro m h
  unfold isDeletedJ at h
  split at h
  · split at h
    · exact Except.noConfusion h
    · exact PyErr.noConfusion (Except.error.inj h)
  · exact Except.noConfusion h

theorem noVE_normalizeUsernameJ (j : Json) : NoVE (normalizeUsernameJ j) := by
  intro m h
  unfold normalizeUsernameJ at h
  split at h
  · split at h
    · exact Except.noConfusion h
    · exact PyErr.noConfusion (Except.error.inj h)
  · exact Except.noConfusion h

theorem noVE_extractUsernameM (kvs : List (String × Json)) : NoVE (extractUsernameM kvs) :=
  noVE_normalizeUsernameJ _

theorem noVE_safeIsoDateJ (isoParse : String → Option String) (j : Json) :
    NoVE (safeIsoDateJ isoParse j) := by
  intro m h
  unfold safeIsoDateJ at h
  split at h
  · split at h
    · exact Except.noConfusion h
    · exact PyErr.noConfusion (Except.error.inj h)
  · exact Except.noConfusion h

theorem noVE_handleFromHref (j : Json) : NoVE (handleFromHref j) := by
  intro m h
  unfold handleFromHref at h
  split at h
  · split at h
    · split at h
      · exact Except.noConfusion h
      · split at h
        · exact Except.noConfusion h
        · exact Except.noConfusion h
    · exact PyErr.noConfusion (Except.error.inj h)
  · exact Except.noConfusion h

theorem noVE_iterJson (j : Json) : NoVE (iterJson j) := by
  unfold iterJson
  split
  · exact noVE_ok _
  · exact noVE_ok _
  · exact noVE_ok _
  · exact noVE_type

theorem noVE_stringifyText (kvs : List (String × Json)) : NoVE (stringifyText kvs) := by
  unfold stringifyText
  split
  · exact noVE_ok _
  · apply noVE_bind
    · apply noVE_foldlM
      intro acc chunk
      split
      · exact noVE_ok _
      · split
        · exact noVE_ok _
        · exact noVE_type
      · exact noVE_ok _
    · intro a; exact noVE_ok _
  · exact noVE_ok _

theorem noVE_extractEntities (kvs : List (String × Json)) : NoVE (extractEntities kvs) := by
  unfold extractEntities
  apply noVE_bind (noVE_iterJson _)
  intro items
  apply noVE_foldlM
  intro acc ent
  cases ent with
  | obj ekvs =>
      simp only
      split
      · split
        · exact noVE_ok _
        · exact noVE_bind (noVE_handleFromHref _) (fun a => noVE_ok _)
      all_goals exact noVE_attr
  | null => exact noVE_attr
  | bool b => exact noVE_attr
  | num n => exact noVE_attr
  | str s => exact noVE_attr
  | arr xs => exact noVE_attr

theorem noVE_scanTexts (kvs : List (String × Json)) (st : PState) :
    NoVE (scanTexts kvs st) := by
  unfold scanTexts
  apply noVE_bind (noVE_stringifyText _)
  intro text
  apply noVE_bind (noVE_extractEntities _)
  intro ents
  exact noVE_ok _

theorem noVE_processMessage (isoParse : String → Option String) (st : PState)
    (message : Json) : NoVE (processMessage isoParse st message) := by
  unfold processMessage
  cases message with
  | obj kvs =>
      simp only
      split
      · exact noVE_ok _
      · apply noVE_bind (noVE_isDeletedJ _)
        intro deleted
        split
        · exact noVE_ok _
        · apply noVE_bind (noVE_extractUsernameM _)
          intro username
          split
          · exact noVE_scanTexts _ _
          · split
            · apply noVE_bind (noVE_safeIsoDateJ _ _)
              intro msg_date
              exact noVE_scanTexts _ _
            · apply noVE_bind (noVE_extractUsernameM _)
              intro u2
              apply noVE_bind (noVE_safeIsoDateJ _ _)
              intro reg
              exact noVE_scanTexts _ _
  | null => exact noVE_ok _
  | bool b => exact noVE_ok _
  | num n => exact noVE_ok _
  | str s => exact noVE_ok _
  | arr xs => exact noVE_ok _

theorem noVE_exportDateValue (kvs : List (String × Json)) :
    NoVE (exportDateValue kvs) := by
  intro m h
  unfold exportDateValue at h
  by_cases h1 : (mget kvs "date").truthy = true
  · rw [if_pos h1] at h; exact Except.noConfusion h
  · rw [if_neg h1] at h
    by_cases h2 : (mget kvs "exported_at").truthy = true
    · rw [if_pos h2] at h; exact Except.noConfusion h
    · rw [if_neg h2] at h
      cases hdr : (alistFindLast? kvs "date_range").getD (.obj []) with
      | obj dkvs => rw [hdr] at h; exact Except.noConfusion h
      | null => rw [hdr] at h; exact PyErr.noConfusion (Except.error.inj h)
      | bool b => rw [hdr] at h; exact PyErr.noConfusion (Except.error.inj h)
      | num n => rw [hdr] at h; exact PyErr.noConfusion (Except.error.inj h)
      | str s => rw [hdr] at h; exact PyErr.noConfusion (Except.error.inj h)
      | arr xs => rw [hdr] at h; exact PyErr.noConfusion (Except.error.inj h)

theorem noVE_extractExportedAt (isoParse : String → Option String) (now : String)
    (kvs : List (String × Json)) : NoVE (extractExportedAt isoParse now kvs) := by
  unfold extractExportedAt
  apply noVE_bind (noVE_exportDateValue kvs)
  intro dv
  apply noVE_bind (noVE_safeIsoDateJ _ _)
  intro parsed
  intro m h
  split at h
  · exact Except.noConfusion h
  · exact Except.noConfusion h

/-! ### Small string facts -/

theorem at_append_ne_empty (t : String) : ("@" ++ t) ≠ "" := by
  intro h
  have := congrArg String.data h
  rw [String.data_append] at this
  exact List.noConfusion this

theorem storedHandle_recordOfHandle (b : Bool) (h : String) :
    storedHandle (recordOfHandle b h) = h := by
  unfold storedHandle recordOfHandle
  by_cases hs : strStartsWith h "@" = true
  · simp [hs]
  · simp [hs, optStr]

/-! ## Claim C7 — identifier priority -/

/-- C7: `buildIdentifier` (the source's `_normalize_username` followed by
`_build_identifier`, as composed in `_parse_json`) is a pure total function
obeying the spec's priority rule — username (trimmed, `@`-ensured,
lowercased) first, then `"{fallbackId}:{lowercase full name or empty}"`,
then the lowercase full name, then `"unknown"` — and matches the four spec
examples exactly. -/
theorem c7_tail (f n : Option String) :
    (if optStr f = "" then pyLower (if optStr n = "" then "unknown" else optStr n)
     else optStr f ++ ":" ++ pyLower (optStr n))
    = (if optStr f = "" then (if optStr n = "" then "unknown" else pyLower (optStr n))
       else optStr f ++ ":" ++ pyLower (optStr n)) := by
  by_cases hf : optStr f = ""
  · rw [if_pos hf, if_pos hf]
    by_cases hn : optStr n = ""
    · rw [if_pos hn, if_pos hn]
      decide
    · rw [if_neg hn, if_neg hn]
  · rw [if_neg hf, if_neg hf]

/-- C7: `buildIdentifier` (the source's `_normalize_username` followed by
`_build_identifier`, as composed in `_parse_json`) is a pure total function
obeying the spec's priority rule — username (trimmed, `@`-ensured,
lowercased) first, then `"\x7bfallbackId\x7d:\x7blowercase full name or empty\x7d"`,
then the lowercase full name, then `"unknown"` — and matches the four spec
examples exactly. -/
theorem c7_build_identifier_priority :
    (∀ u f n : Option String, buildIdentifierNorm u f n = specBuildIdentifier u f n)
    ∧ buildIdentifierNorm (some "@Foo") (some "123") (some "Foo Bar") = "@foo"
    ∧ buildIdentifierNorm none (some "123") (some "Foo Bar") = "123:foo bar"
    ∧ buildIdentifierNorm none none (some "Foo Bar") = "foo bar"
    ∧ buildIdentifierNorm none none none = "unknown" := by
  refine ⟨?_, by decide, by decide, by decide, by decide⟩
  intro u f n
  unfold buildIdentifierNorm normalizeUsernameOpt
  by_cases hu : optStr u = ""
  · rw [if_pos hu]
    unfold specBuildIdentifier buildIdentifier
    rw [hu]
    rw [if_pos (show pyStrip "" = "" from rfl), if_pos (show optStr none = "" from rfl)]
    exact c7_tail f n
  · rw [if_neg hu]
    unfold specBuildIdentifier buildIdentifier normalizeUsernameStr
    by_cases ht : pyStrip (optStr u) = ""
    · rw [if_pos ht, if_pos ht, if_pos (show optStr none = "" from rfl)]
      exact c7_tail f n
    · rw [if_neg ht, if_neg ht]
      by_cases hat : strStartsWith (pyStrip (optStr u)) "@" = true
      · rw [if_pos hat, if_pos hat, if_neg (show ¬ optStr (some (pyStrip (optStr u))) = "" from ht)]
        rfl
      · rw [if_neg hat, if_neg hat,
          if_neg (show ¬ optStr (some ("@" ++ pyStrip (optStr u))) = "" from
            at_append_ne_empty (pyStrip (optStr u)))]
        rfl

/-! ## Claim C8 — output routing threshold -/

/-- C8 as stated is false: a session with zero participants but at least one
received file takes the empty-result notice path, not the inline listing,
even though `0 < 50`. -/
theorem c8_counterexample :
    exportRoute 0 1 50 = ExportRoute.emptyNotice
    ∧ ExportRoute.emptyNotice ≠ ExportRoute.inlineText := by
  decide

/-- C8 amended: outside the degenerate empty-result case (`total = 0` with
files received), routing is by strict threshold comparison — `total <
threshold` selects inline text, `total ≥ threshold` the spreadsheet; the
default threshold is 50, and 49 participants route inline while 50 route to
the spreadsheet. -/
theorem c8_amended :
    (∀ total fr th : Nat, ¬(total = 0 ∧ 0 < fr) →
      ((exportRoute total fr th = ExportRoute.inlineText ↔ total < th)
       ∧ (exportRoute total fr th = ExportRoute.excel ↔ th ≤ total)))
    ∧ ({ token := "" : Settings }).min_inline_response = 50
    ∧ exportRoute 49 1 50 = ExportRoute.inlineText
    ∧ exportRoute 50 1 50 = ExportRoute.excel := by
  refine ⟨?_, rfl, by decide, by decide⟩
  intro total fr th hne
  unfold exportRoute
  rw [if_neg hne]
  by_cases hlt : total < th
  · rw [if_pos hlt]
    constructor
    · exact ⟨fun _ => hlt, fun _ => rfl⟩
    · constructor
      · intro h; exact absurd h (by decide)
      · intro h; omega
  · rw [if_neg hlt]
    constructor
    · constructor
      · intro h; exact absurd h (by decide)
      · intro h; omega
    · exact ⟨fun _ => by omega, fun _ => rfl⟩

theorem c8_witness : exportRoute 49 1 50 = ExportRoute.inlineText :=
  ((c8_amended.1 49 1 50 (by decide)).1).mpr (by decide)

/-! ## Claim C10 — silent fall-through of `parse` -/

/-- C10: when the lowercased file name does not end in `.json` and the
left-stripped payload does not start with a `\x7b` byte, `parse` returns
Python `None` — no result and no error. -/
theorem c10_parse_fallthrough :
    ∀ (isoParse : String → Option String) (now : String) (fn : Option String)
      (payload : List Nat) (decoded : Option Json),
    strEndsWith (pyLower (optStr fn)) ".json" = false →
    (bytesLstrip payload).head? ≠ some 123 →
    DataParser.parse isoParse now fn payload decoded = .ok none := by
  intro isoParse now fn payload decoded h1 h2
  unfold DataParser.parse
  rw [h1]
  simp only [Bool.false_eq_true, if_false]
  rw [if_neg h2]

theorem c10_witness :
    DataParser.parse (fun s => some s) "T0" (some "export.txt") [104, 105]
      (some (.obj [])) = .ok none :=
  c10_parse_fallthrough _ _ _ _ _ (by decide) (by decide)

/-! ## Claim C1 — deleted-account senders -/

/-- C1 as stated is false: a message whose sender matches a deleted-account
marker is skipped wholesale by the loop's `continue`, so its text
contributes no mentions and no channel links even though the free-text
scanner would find one of each. -/
theorem c1_counterexample :
    parseJsonDecoded (fun s => some s) "T0"
      (some (.obj [("messages", .arr [.obj
        [("from", .str "Deleted Account"),
         ("text", .str "hi @validuser5 visit t.me/chan5")]])]))
      = .ok { exported_at := "T0", participants := [], mentions := [], channels := [] }
    ∧ extractMentions "hi @validuser5 visit t.me/chan5"
      = (["@validuser5"], ["t.me/chan5"]) := by
  constructor
  · decide
  · decide

/-- C1 amended: a message whose sender name matches a deleted-account marker
is skipped entirely — it produces no participant record AND its text is not
scanned, leaving the whole per-file state unchanged. -/
theorem c1_amended_deleted_message_skipped :
    ∀ (isoParse : String → Option String) (st : PState) (kvs : List (String × Json)),
    isDeletedJ (pyOr (mget kvs "from") (mget kvs "actor")) = .ok true →
    processMessage isoParse st (.obj kvs) = .ok st := by
  intro isoParse st kvs h
  show (if (!typeAllowed (mget kvs "type")) = true then Except.ok st
        else isDeletedJ (pyOr (mget kvs "from") (mget kvs "actor")) >>= fun deleted =>
          if deleted = true then Except.ok st
          else _) = Except.ok st
  split
  · rfl
  · rw [h]
    rfl

theorem c1_witness :
    processMessage (fun s => some s) {}
      (.obj [("from", .str "Deleted Account"), ("text", .str "hi @validuser5")])
      = .ok {} :=
  c1_amended_deleted_message_skipped _ _ _ (by decide)

/-! ## Claim C2 — `as_rows` ordering -/

/-- C2 as stated is false: `as_rows` performs no sorting, so a session whose
maps were filled out of label order yields rows out of label order
(labels come out `["bob", "alice"]`, which is not sorted). -/
theorem c2_counterexample :
    ((((({} : SessionData).merge
        { exported_at := "T1",
          participants := [{ identifier := "bob", full_name := some "bob" }] }).1.merge
        { exported_at := "T2",
          participants := [{ identifier := "alice", full_name := some "alice" }] }).1.as_rows
        none "T0").participants).map rowSortKey = ["bob", "alice"]
    ∧ ¬ (("bob" : String) ≤ "alice") := by
  constructor
  · decide
  · rw [← strLeB_iff]
    decide

/-- C2 amended: `as_rows` projects each category in the map's insertion
order — the sequence of display labels of the produced rows equals the
sequence of display labels of the map's records, with no re-sorting (the
sorted listing exists only in the inline-output path of the bot layer). -/
theorem c2_amended_rows_in_map_order :
    ∀ (s : SessionData) (e : Option String) (now : String),
    ((s.as_rows e now).participants.map rowSortKey
       = s.participants.map (fun kv => specSortKey kv.2))
    ∧ ((s.as_rows e now).mentions.map rowSortKey
       = s.mentions.map (fun kv => specSortKey kv.2))
    ∧ ((s.as_rows e now).channels.map rowSortKey
       = s.channels.map (fun kv => specSortKey kv.2)) := by
  intro s e now
  refine ⟨?_, ?_, ?_⟩ <;>
    simp [SessionData.as_rows, recordsToRows, List.map_map, rowSortKey, specSortKey,
      IdentityRecord.to_row, Function.comp]

/-! ## Claim C3 — handle normalization and ordering -/

/-- C3 as stated is false: an entity-span mention text is stored verbatim
(case preserved), so one file can yield two mention records with the same
lowercase identifier. -/
theorem c3_counterexample :
    (parseJsonDecoded (fun s => some s) "T0"
      (some (.obj [("messages", .arr [.obj
        [("from", .str "Alice"),
         ("text", .str "hi @foobar1"),
         ("text_entities", .arr [.obj [("text", .str "@FooBar1")]])]])]))).map
      (fun r => r.mentions.map (fun x => x.identifier))
    = .ok ["@foobar1", "@foobar1"] := by
  decide

/-- C3 amended: both sources feed the same per-file sets, but only
free-text-derived handles are lowercased (entity texts are stored
verbatim); the final lists are deduplicated by raw stored handle and sorted
lexicographically by raw stored handle, each record's canonical identifier
being the lowercase of its stored handle — so two records may share a
lowercase identifier when entity texts differ only in case. -/
theorem c3_amended_handles :
    (∀ (handles : List String) (b : Bool),
      List.Sorted (· ≤ ·) ((recordsFromHandles handles b).map storedHandle)
      ∧ (∀ r ∈ recordsFromHandles handles b, r.identifier = pyLower (storedHandle r))
      ∧ (handles.Nodup → ((recordsFromHandles handles b).map storedHandle).Nodup))
    ∧ (∀ t : String,
      (∀ m ∈ (extractMentions t).1, pyLower m = m)
      ∧ (∀ c ∈ (extractMentions t).2, pyLower c = c)) := by
  constructor
  · intro handles b
    have hmap : (recordsFromHandles handles b).map storedHandle = sortStr handles := by
      unfold recordsFromHandles
      rw [List.map_map]
      calc (sortStr handles).map (storedHandle ∘ recordOfHandle b)
          = (sortStr handles).map (fun h => h) :=
            List.map_congr_left (fun h _ => storedHandle_recordOfHandle b h)
        _ = sortStr handles := List.map_id' _
    refine ⟨hmap ▸ sortStr_sorted handles, ?_, fun hnd => hmap ▸ sortStr_nodup hnd⟩
    intro r hr
    obtain ⟨h, _, rfl⟩ := List.mem_map.mp hr
    rw [storedHandle_recordOfHandle]
    rfl
  · intro t
    constructor
    · intro m hm
      obtain ⟨w, _, rfl⟩ := List.mem_map.mp hm
      rw [pyLower_append, pyLower_idem, show pyLower "@" = "@" from by decide]
    · intro c hc
      obtain ⟨w, _, rfl⟩ := List.mem_map.mp hc
      rw [pyLower_append, pyLower_idem, show pyLower "t.me/" = "t.me/" from by decide]

theorem c3_witness :
    ((recordsFromHandles ["@B"] false).map storedHandle).Nodup
    ∧ pyLower "@abcde" = "@abcde" :=
  ⟨(c3_amended_handles.1 ["@B"] false).2.2 (by decide),
   (c3_amended_handles.2 "hi @ABCDE").1 "@abcde" (by decide)⟩

/-! ## Claim C4 — `FormatError` boundaries -/

theorem parseJsonDecoded_obj (isoParse : String → Option String) (now : String)
    (kvs : List (String × Json)) :
    parseJsonDecoded isoParse now (some (.obj kvs))
      = (extractExportedAt isoParse now kvs >>= fun exported =>
         iterJson ((alistFindLast? kvs "messages").getD (.arr [])) >>= fun msgs =>
         msgs.foldlM (processMessage isoParse) {} >>= fun st =>
         Except.ok { exported_at := exported,
                     participants := st.authors.map (fun kv => kv.2),
                     mentions := recordsFromHandles st.mentions false,
                     channels := recordsFromHandles st.channels true }) := rfl

/-- C4 as stated is false: an array is valid JSON lacking the expected
top-level shape, yet the parser raises `AttributeError` (the uncaught
`raw.get` on a list), not the user-facing `ValueError` (FormatError). -/
theorem c4_counterexample :
    parseJsonDecoded (fun s => some s) "T0" (some (.arr []))
      = .error .attributeError := by
  decide

/-- C4 amended: the `ValueError` FormatError with its fixed user-facing
message is raised exactly when the payload failed UTF-8/JSON decoding;
valid JSON with a non-object top level (or ill-typed fields) escapes with a
different, unhandled error instead; and a valid JSON object without a
`messages` field — whose date fields extract cleanly — yields an empty but
valid result. -/
theorem c4_amended_format_error :
    (∀ (isoParse : String → Option String) (now : String),
      parseJsonDecoded isoParse now none
        = .error (.valueError "Не удалось разобрать JSON-файл экспорта"))
    ∧ (∀ (isoParse : String → Option String) (now : String) (d : Option Json) (m : String),
      parseJsonDecoded isoParse now d = .error (.valueError m) →
      d = none ∧ m = "Не удалось разобрать JSON-файл экспорта")
    ∧ (∀ (isoParse : String → Option String) (now : String)
        (kvs : List (String × Json)) (e : String),
      alistFindLast? kvs "messages" = none →
      extractExportedAt isoParse now kvs = .ok e →
      parseJsonDecoded isoParse now (some (.obj kvs))
        = .ok { exported_at := e, participants := [], mentions := [], channels := [] }) := by
  refine ⟨fun _ _ => rfl, ?_, ?_⟩
  · intro isoParse now d m h
    cases d with
    | none =>
        refine ⟨rfl, ?_⟩
        exact (PyErr.valueError.inj (Except.error.inj h)).symm
    | some j =>
        exfalso
        cases j with
        | obj kvs =>
            have hn : NoVE (parseJsonDecoded isoParse now (some (.obj kvs))) := by
              rw [parseJsonDecoded_obj]
              exact noVE_bind (noVE_extractExportedAt _ _ _) (fun e =>
                noVE_bind (noVE_iterJson _) (fun msgs =>
                  noVE_bind
                    (noVE_foldlM _ (fun acc a => noVE_processMessage isoParse acc a) msgs _)
                    (fun st => noVE_ok _)))
            exact hn m h
        | null => exact PyErr.noConfusion (Except.error.inj h)
        | bool b => exact PyErr.noConfusion (Except.error.inj h)
        | num n => exact PyErr.noConfusion (Except.error.inj h)
        | str s2 => exact PyErr.noConfusion (Except.error.inj h)
        | arr xs => exact PyErr.noConfusion (Except.error.inj h)
  · intro isoParse now kvs e hmsg hexp
    rw [parseJsonDecoded_obj, hmsg, hexp]
    rfl

theorem c4_witness :
    parseJsonDecoded (fun s => some s) "T0" (some (.obj [("foo", .null)]))
      = .ok { exported_at := "T0", participants := [], mentions := [], channels := [] } :=
  c4_amended_format_error.2.2 _ _ _ _ rfl (by decide)

/-! ## Claim C5 — merge order independence -/

/-- C5 as stated is false: merge is first-seen-wins per identifier, so when
the same identifier arrives with different records the surviving record —
hence the final map — depends on the merge order. -/
theorem c5_counterexample :
    alistFind? ((({} : SessionData).merge
        { exported_at := "T1", participants := [{ identifier := "x", registered_at := some "2024-01-01T00:00:00" }] }).1.merge
        { exported_at := "T2", participants := [{ identifier := "x", registered_at := some "2023-01-01T00:00:00" }] }).1.participants "x"
      = some { identifier := "x", registered_at := some "2024-01-01T00:00:00" }
    ∧ alistFind? ((({} : SessionData).merge
        { exported_at := "T2", participants := [{ identifier := "x", registered_at := some "2023-01-01T00:00:00" }] }).1.merge
        { exported_at := "T1", participants := [{ identifier := "x", registered_at := some "2024-01-01T00:00:00" }] }).1.participants "x"
      = some { identifier := "x", registered_at := some "2023-01-01T00:00:00" }
    ∧ ({ identifier := "x", registered_at := some "2024-01-01T00:00:00" } : IdentityRecord)
      ≠ ({ identifier := "x", registered_at := some "2023-01-01T00:00:00" } : IdentityRecord) := by
  refine ⟨by decide, by decide, by decide⟩

/-- C5 amended: merge order affects only which record survives for an
identifier contested between the two results; the identifier key sets of
all three maps, and the `files_processed`/`files_received` counters, are
order independent (with `last_exported_at` the remaining order-sensitive
field). -/
theorem c5_amended_key_sets_order_independent :
    ∀ (s : SessionData) (r1 r2 : ParsedData) (k : String),
    (hasKey ((s.merge r1).1.merge r2).1.participants k
       = hasKey ((s.merge r2).1.merge r1).1.participants k)
    ∧ (hasKey ((s.merge r1).1.merge r2).1.mentions k
       = hasKey ((s.merge r2).1.merge r1).1.mentions k)
    ∧ (hasKey ((s.merge r1).1.merge r2).1.channels k
       = hasKey ((s.merge r2).1.merge r1).1.channels k)
    ∧ ((s.merge r1).1.merge r2).1.files_processed
       = ((s.merge r2).1.merge r1).1.files_processed
    ∧ ((s.merge r1).1.merge r2).1.files_received
       = ((s.merge r2).1.merge r1).1.files_received := by
  intro s r1 r2 k
  have key : ∀ (m : List (String × IdentityRecord)) (a b : List IdentityRecord),
      hasKey (mergeCat (mergeCat m a).1 b).1 k = hasKey (mergeCat (mergeCat m b).1 a).1 k := by
    intro m a b
    simp only [mergeCat, foldl_mergeStep_hasKey]
    generalize hasKey (m, 0).1 k = x
    generalize (a.any fun r => r.identifier == k) = p
    generalize (b.any fun r => r.identifier == k) = q
    cases x <;> cases p <;> cases q <;> rfl
  exact ⟨key _ _ _, key _ _ _, key _ _ _, rfl, rfl⟩

/-! ## Claim C6 — merge idempotence -/

/-- C6: merging the same extraction result a second time leaves all three
maps unchanged and returns zero counters for every category. -/
theorem c6_merge_idempotent :
    ∀ (s : SessionData) (p : ParsedData),
    ((s.merge p).1.merge p).1.participants = (s.merge p).1.participants
    ∧ ((s.merge p).1.merge p).1.mentions = (s.merge p).1.mentions
    ∧ ((s.merge p).1.merge p).1.channels = (s.merge p).1.channels
    ∧ ((s.merge p).1.merge p).2
       = { participants := 0, mentions := 0, channels := 0 } := by
  intro s p
  have key : ∀ (m : List (String × IdentityRecord)) (rs : List IdentityRecord),
      mergeCat (mergeCat m rs).1 rs = ((mergeCat m rs).1, 0) :=
    fun m rs => foldl_mergeStep_all_present rs _
      (fun r hr => foldl_mergeStep_mem_keys rs (m, 0) r hr)
  refine ⟨?_, ?_, ?_, ?_⟩
  · show (mergeCat (mergeCat s.participants p.participants).1 p.participants).1
      = (mergeCat s.participants p.participants).1
    rw [key]
  · show (mergeCat (mergeCat s.mentions p.mentions).1 p.mentions).1
      = (mergeCat s.mentions p.mentions).1
    rw [key]
  · show (mergeCat (mergeCat s.channels p.channels).1 p.channels).1
      = (mergeCat s.channels p.channels).1
    rw [key]
  show ({ participants := (mergeCat (mergeCat s.participants p.participants).1 p.participants).2,
          mentions := (mergeCat (mergeCat s.mentions p.mentions).1 p.mentions).2,
          channels := (mergeCat (mergeCat s.channels p.channels).1 p.channels).2 }
        : MergeCounters) = _
  rw [key, key, key]

/-! ## Claim C9 — earliest `registered_at` within a file, first-seen across files -/

theorem alistFind?_updateReg (k : String) (d : Option String) :
    ∀ (authors : List (String × IdentityRecord)) (rec : IdentityRecord),
    alistFind? authors k = some rec →
    alistFind? (updateReg authors k d) k
      = some { rec with registered_at := minRegUpdate rec.registered_at d } := by
  intro authors
  induction authors with
  | nil => intro rec h; exact Option.noConfusion h
  | cons kv rest ih =>
      intro rec h
      unfold alistFind? at h
      by_cases hk : kv.1 = k
      · rw [if_pos hk] at h
        have hrec : kv.2 = rec := Option.some.inj h
        show alistFind?
          ((if kv.1 = k
            then (kv.1, { kv.2 with registered_at := minRegUpdate kv.2.registered_at d })
            else kv) :: updateReg rest k d) k = _
        rw [if_pos hk]
        unfold alistFind?
        rw [if_pos hk, hrec]
      · rw [if_neg hk] at h
        show alistFind?
          ((if kv.1 = k
            then (kv.1, { kv.2 with registered_at := minRegUpdate kv.2.registered_at d })
            else kv) :: updateReg rest k d) k = _
        rw [if_neg hk]
        unfold alistFind?
        rw [if_neg hk]
        exact ih rec h

/-- C9: within one file, a repeated sender's `registered_at` becomes the
string-minimum of the stored and incoming dates while every other field of
the first-seen record is kept; across files, `merge` drops a later file's
record for an already-present identifier entirely, never re-minimizing
`registered_at`.  The concrete two-message export keeps the earlier date. -/
theorem c9_registered_at_minimization :
    (∀ e d : String, e ≠ "" → d ≠ "" →
      minRegUpdate (some e) (some d) = some (min d e))
    ∧ (∀ (authors : List (String × IdentityRecord)) (k : String)
        (d : Option String) (rec : IdentityRecord),
      alistFind? authors k = some rec →
      alistFind? (updateReg authors k d) k
        = some { rec with registered_at := minRegUpdate rec.registered_at d })
    ∧ (∀ (m : List (String × IdentityRecord)) (rs : List IdentityRecord) (k : String),
      hasKey m k = true →
      alistFind? (mergeCat m rs).1 k = alistFind? m k)
    ∧ (parseJsonDecoded (fun s => some s) "T0"
        (some (.obj [("messages", .arr
          [.obj [("from", .str "Bob"), ("from_id", .num 7),
                 ("date", .str "2024-05-05T00:00:00")],
           .obj [("from", .str "Bob"), ("from_id", .num 7),
                 ("date", .str "2024-01-01T00:00:00")]])]))).map
        (fun r => r.participants.map (fun x => x.registered_at))
      = .ok [some "2024-01-01T00:00:00"] := by
  refine ⟨?_, fun authors k d rec h => alistFind?_updateReg k d authors rec h,
    fun m rs k hk => foldl_mergeStep_find rs (m, 0) k hk, by decide⟩
  intro e d he hd
  show (if d = "" then some e
        else if e = "" then some d
        else if strLtB d e then some d else some e) = some (min d e)
  rw [if_neg hd, if_neg he]
  by_cases hlt : strLtB d e = true
  · rw [if_pos hlt, min_eq_left (le_of_lt ((strLtB_iff d e).mp hlt))]
  · rw [if_neg hlt,
      min_eq_right (not_lt.mp (fun hl => hlt ((strLtB_iff d e).mpr hl)))]

theorem c9_witness :
    minRegUpdate (some "2024-05-05") (some "2024-01-01")
      = some (min "2024-01-01" "2024-05-05")
    ∧ alistFind? (updateReg
        [("x", { identifier := "x", registered_at := some "2024-05-05" })]
        "x" (some "2024-01-01")) "x"
      = some { ({ identifier := "x", registered_at := some "2024-05-05" } : IdentityRecord) with
               registered_at := minRegUpdate (some "2024-05-05") (some "2024-01-01") }
    ∧ alistFind? (mergeCat [("x", { identifier := "x" })]
        [{ identifier := "x", registered_at := some "2020-01-01" }]).1 "x"
      = alistFind? [("x", ({ identifier := "x" } : IdentityRecord))] "x" :=
  ⟨c9_registered_at_minimization.1 "2024-05-05" "2024-01-01" (by decide) (by decide),
   c9_registered_at_minimization.2.1
     [("x", { identifier := "x", registered_at := some "2024-05-05" })] "x"
     (some "2024-01-01") { identifier := "x", registered_at := some "2024-05-05" }
     (by decide),
   c9_registered_at_minimization.2.2.1
     [("x", { identifier := "x" })]
     [{ identifier := "x", registered_at := some "2020-01-01" }] "x" (by decide)⟩

end ChatBot
